import Mathlib

/-!
Shallow embedding of the task-management core of the TodoList repository
(src/src/main.cpp, with the second variant embedded in src/build/build.sh).

The program keeps two in-memory vectors of tasks (`tasks`, the active list,
and `finished_tasks`) synchronized with a single SQLite table
`tasks(task_name TEXT, task_finished INTEGER)`.  The SQL statements used by
the program are single-row/single-predicate operations, embedded here as
list transformations on the list of stored rows:

  * `INSERT INTO tasks (task_name, task_finished) VALUES (n, 0)`
      — append one row with flag 0;
  * `SELECT ... WHERE task_finished = 0` / `= 1` — filter;
  * `UPDATE tasks SET task_finished = ? WHERE task_name = ?` — map over rows;
  * `DELETE FROM tasks WHERE task_finished = 1` — filter out.

Fallibility of the store (`sqlite3_open` / `sqlite3_prepare_v2` failing) is
embedded as explicit boolean parameters on the operations whose control flow
branches on those results.
-/

namespace TodoList

/-- The in-memory task record (`struct Task` in main.cpp): a name and a
completion flag.  The build.sh variant adds a `time_added` field that none
of the synchronization logic inspects; it is omitted here. -/
structure Task where
  name : String
  is_finished : Bool
deriving DecidableEq

/-- One stored row of the `tasks` table: `task_name TEXT NOT NULL`,
`task_finished INTEGER NOT NULL`.  The integer column is a `Nat`: the
schema does not constrain it to {0, 1}. -/
structure Row where
  task_name : String
  task_finished : Nat
deriving DecidableEq

/-- The full program state: the two global vectors of main.cpp
(`std::vector<Task> tasks; std::vector<Task> finished_tasks;`) plus the
rows of the on-disk `tasks` table. -/
structure AppState where
  tasks : List Task
  finished_tasks : List Task
  db : List Row
deriving DecidableEq

/-- `int is_finished = task.is_finished ? 1 : 0;`
(update_tasks_in_database, main.cpp:499). -/
def task_flag (t : Task) : Nat := if t.is_finished then 1 else 0

/-- Effect of one execution of the prepared statement
`UPDATE tasks SET task_finished = ? WHERE task_name = ?` on a single row. -/
def update_row (name : String) (flag : Nat) (r : Row) : Row :=
  if r.task_name = name then { r with task_finished := flag } else r

/-- Effect of that UPDATE statement on the whole table: every row whose
`task_name` matches is set to `flag`; every other row is untouched. -/
def update_by_name (name : String) (flag : Nat) (db : List Row) : List Row :=
  db.map (update_row name flag)

/-- `update_tasks_in_database()` (main.cpp:479-524), success path: for each
in-memory task, in order, run the name-keyed UPDATE with that task's flag. -/
def update_tasks_in_database (tasks : List Task) (db : List Row) : List Row :=
  tasks.foldl (fun acc t => update_by_name t.name (task_flag t) acc) db

/-- The cumulative effect of `update_tasks_in_database` on one row: the
per-row fold of the successive UPDATE statements. -/
def apply_updates (tasks : List Task) (r : Row) : Row :=
  tasks.foldl (fun r t => update_row t.name (task_flag t) r) r

/-- Row set produced by
`SELECT task_name, task_finished FROM tasks WHERE task_finished = 0`,
converted to tasks exactly as the load loop does
(`is_finished = static_cast<bool>(sqlite3_column_int(stmt, 1))`,
main.cpp:421-426). -/
def select_active (db : List Row) : List Task :=
  (db.filter (fun r => r.task_finished == 0)).map
    (fun r => { name := r.task_name, is_finished := r.task_finished != 0 })

/-- Row set produced by
`SELECT task_name, task_finished FROM tasks WHERE task_finished = 1`,
converted to tasks exactly as `get_finished_tasks()` does
(`bool task_finished = sqlite3_column_int(stmt, 1) == 1;`,
main.cpp:603-609). -/
def select_finished (db : List Row) : List Task :=
  (db.filter (fun r => r.task_finished == 1)).map
    (fun r => { name := r.task_name, is_finished := r.task_finished == 1 })

/-- `DELETE FROM tasks WHERE task_finished = 1`
(clear_finished_tasks, main.cpp:539). -/
def delete_finished (db : List Row) : List Row :=
  db.filter (fun r => r.task_finished != 1)

/-- The single-quote character, `\x27`, written via its code point. -/
def squote : Char := Char.ofNat 39

/-- `add_task` builds its INSERT by string concatenation
(`"... VALUES ('" + task + "', 0);"`, main.cpp:382), so the task name is
spliced into a single-quoted SQL literal unescaped.  This function is the
SQL lexer's reading of the characters between the added quotes: a pair of
consecutive single quotes denotes one literal quote, while an unpaired
single quote terminates the literal early and leaves trailing garbage, so
`sqlite3_exec` rejects the statement (`none`).  A name without quotes is
stored verbatim. -/
def unescape_quotes : List Char → Option (List Char)
  | [] => some []
  | [c] => if c = squote then none else some [c]
  | c :: c2 :: rest =>
    if c = squote then
      if c2 = squote then (unescape_quotes rest).map (fun l => squote :: l)
      else none
    else (unescape_quotes (c2 :: rest)).map (fun l => c :: l)

/-- The name actually stored by the concatenated INSERT for in-memory name
`name`: `none` when the assembled statement is malformed (no row inserted,
only an error logged), `some stored` when it executes and stores
`stored`. -/
def stored_name (name : String) : Option String :=
  (unescape_quotes name.data).map (fun cs => String.mk cs)

/-- Effect of `sqlite3_exec` of the concatenated INSERT on the table:
one appended row `(stored, 0)` when the statement parses, nothing when it
does not. -/
def insert_task_row (name : String) (db : List Row) : List Row :=
  match stored_name name with
  | some stored => db ++ [{ task_name := stored, task_finished := 0 }]
  | none => db

/-- `add_task(task)` (main.cpp:370-400).  `if (!task.empty())`: a task is
constructed with `is_finished = false` and pushed onto the in-memory vector
unconditionally; the store is touched only when `sqlite3_open` succeeds
(`openOK`), and then the concatenated INSERT appends the row its SQL text
denotes (see `insert_task_row`).  An empty name does nothing. -/
def add_task (openOK : Bool) (name : String) (s : AppState) : AppState :=
  if name = "" then s
  else
    { s with
      tasks := s.tasks ++ [{ name := name, is_finished := false }]
      db := if openOK then insert_task_row name s.db else s.db }

/-- `load_tasks_from_database()` (main.cpp:402-436).  If `sqlite3_open`
fails, only an error is printed.  If it succeeds but `sqlite3_prepare_v2`
fails, the function returns before `tasks.clear()` is reached
(main.cpp:413-419).  Only after a successful prepare is the vector cleared
and repopulated from the `task_finished = 0` rows. -/
def load_tasks_from_database (openOK prepOK : Bool) (s : AppState) : AppState :=
  if openOK then
    if prepOK then { s with tasks := select_active s.db }
    else s
  else s

/-- `get_finished_tasks()` (main.cpp:576-615): returns the
`task_finished = 1` rows on success and the empty vector when the store
cannot be opened or the statement cannot be prepared. -/
def get_finished_tasks (openOK prepOK : Bool) (db : List Row) : List Task :=
  if openOK then
    if prepOK then select_finished db
    else []
  else []

/-- The in-memory erase loop of `delete_tasks()` (main.cpp:566-572):

    for (int i = 0; i < tasks.size(); i++)
        if (tasks[i].is_finished == true)
            tasks.erase(tasks.begin() + i);

`i` is incremented after every iteration, including the iterations that
erase, so the element shifted into position `i` by an erase is skipped. -/
def delete_loop (ts : List Task) (i : Nat) : List Task :=
  if h : i < ts.length then
    if (ts.get ⟨i, h⟩).is_finished then
      delete_loop (ts.eraseIdx i) (i + 1)
    else
      delete_loop ts (i + 1)
  else ts
termination_by ts.length - i
decreasing_by
  · have hlen : (ts.eraseIdx i).length = ts.length - 1 :=
      List.length_eraseIdx_of_lt h
    omega
  · omega

/-- `delete_tasks()` (main.cpp:563-574), success path: push the in-memory
flags to the store by name, run the erase loop on the active vector, then
replace `finished_tasks` with a fresh `get_finished_tasks()` read of the
updated store. -/
def delete_tasks (s : AppState) : AppState :=
  let db2 := update_tasks_in_database s.tasks s.db
  { tasks := delete_loop s.tasks 0
    finished_tasks := select_finished db2
    db := db2 }

/-- The in-memory erase loop of the build.sh variant's `delete_tasks()`
(build.sh:579-590): the iterator pattern
`it = tasks.erase(it)` / `++it`, which visits every element. -/
def delete_loop_glfw : List Task → List Task
  | [] => []
  | t :: rest =>
    if t.is_finished then delete_loop_glfw rest
    else t :: delete_loop_glfw rest

/-- The checkbox handler of `render_task_list()` (main.cpp:465-469):
`tasks[i].is_finished = is_checked;` — set the flag of the element at
index `i` to the checkbox state, purely in memory. -/
def toggle_task : List Task → Nat → Bool → List Task
  | [], _, _ => []
  | t :: rest, 0, b => { t with is_finished := b } :: rest
  | t :: rest, i + 1, b => t :: toggle_task rest i b

/-- The clear-finished button handler (main.cpp:266-270):
`finished_tasks.clear(); clear_finished_tasks();` — empty the in-memory
finished vector and delete the `task_finished = 1` rows. -/
def clear_finished (s : AppState) : AppState :=
  { s with
    finished_tasks := []
    db := delete_finished s.db }

theorem update_row_task_name (n : String) (f : Nat) (r : Row) :
    (update_row n f r).task_name = r.task_name := by
  unfold update_row
  split <;> rfl

theorem apply_updates_cons (t : Task) (ts : List Task) (r : Row) :
    apply_updates (t :: ts) r = apply_updates ts (update_row t.name (task_flag t) r) := rfl

theorem apply_updates_task_name (ts : List Task) (r : Row) :
    (apply_updates ts r).task_name = r.task_name := by
  induction ts generalizing r with
  | nil => rfl
  | cons t ts ih =>
    rw [apply_updates_cons, ih, update_row_task_name]

theorem apply_updates_append (l1 l2 : List Task) (r : Row) :
    apply_updates (l1 ++ l2) r = apply_updates l2 (apply_updates l1 r) := by
  simp [apply_updates]

theorem apply_updates_no_match (ts : List Task) (r : Row)
    (h : ∀ t ∈ ts, t.name ≠ r.task_name) : apply_updates ts r = r := by
  induction ts with
  | nil => rfl
  | cons t ts ih =>
    have h1 : t.name ≠ r.task_name := h t (List.mem_cons_self t ts)
    rw [apply_updates_cons]
    have hrow : update_row t.name (task_flag t) r = r := by
      unfold update_row
      rw [if_neg (fun hc => h1 hc.symm)]
    rw [hrow]
    exact ih (fun u hu => h u (List.mem_cons_of_mem t hu))

theorem update_all_eq_map (ts : List Task) (db : List Row) :
    update_tasks_in_database ts db = db.map (apply_updates ts) := by
  induction ts generalizing db with
  | nil =>
    show db = List.map (apply_updates []) db
    exact (List.map_id db).symm
  | cons t ts ih =>
    show update_tasks_in_database ts (update_by_name t.name (task_flag t) db) = _
    rw [ih, update_by_name, List.map_map]
    rfl

theorem delete_loop_sublist_aux :
    ∀ (n : Nat) (ts : List Task) (i : Nat), ts.length - i ≤ n →
      (delete_loop ts i).Sublist ts := by
  intro n
  induction n with
  | zero =>
    intro ts i hn
    rw [delete_loop]
    rw [dif_neg (by omega)]
  | succ n ih =>
    intro ts i hn
    rw [delete_loop]
    by_cases h : i < ts.length
    · rw [dif_pos h]
      by_cases hfin : (ts.get ⟨i, h⟩).is_finished
      · rw [if_pos hfin]
        have hlen : (ts.eraseIdx i).length = ts.length - 1 :=
          List.length_eraseIdx_of_lt h
        exact (ih (ts.eraseIdx i) (i + 1) (by omega)).trans (List.eraseIdx_sublist ts i)
      · rw [if_neg hfin]
        exact ih ts (i + 1) (by omega)
    · rw [dif_neg h]

/-! ### Claims -/

/-- C1 (code bug in `delete_tasks`, main.cpp:566-572): the erase loop
increments the index after `tasks.erase(tasks.begin() + i)`, skipping the
element shifted into position `i`.  Starting from two adjacent finished
active tasks, the second one survives the call still marked finished, so
the active collection does contain an element with `is_finished = true`
after `delete_tasks()` returns, contradicting the claim and the function's
own documentation. -/
theorem delete_tasks_leaves_finished_task :
    (delete_tasks ⟨[⟨"a", true⟩, ⟨"b", true⟩], [], []⟩).tasks = [⟨"b", true⟩] ∧
    ((delete_tasks ⟨[⟨"a", true⟩, ⟨"b", true⟩], [], []⟩).tasks.all
      (fun t => !t.is_finished)) = false := by
  have h : (delete_tasks ⟨[⟨"a", true⟩, ⟨"b", true⟩], [], []⟩).tasks = [⟨"b", true⟩] := by
    show delete_loop [⟨"a", true⟩, ⟨"b", true⟩] 0 = [⟨"b", true⟩]
    simp [delete_loop]
  exact ⟨h, by rw [h]; rfl⟩

/-- The build.sh variant of the erase loop (iterator pattern,
build.sh:579-590) does remove every finished task, confirming that the
main.cpp loop is a slip rather than intent. -/
theorem delete_loop_glfw_removes_all_finished (ts : List Task) :
    (delete_loop_glfw ts).all (fun t => !t.is_finished) = true := by
  induction ts with
  | nil => rfl
  | cons t rest ih =>
    unfold delete_loop_glfw
    by_cases h : t.is_finished
    · rw [if_pos h]; exact ih
    · rw [if_neg h]
      simp only [List.all_cons, ih, Bool.and_true]
      simp [h]

theorem unescape_quotes_of_no_quote :
    ∀ (cs : List Char), squote ∉ cs → unescape_quotes cs = some cs
  | [], _ => rfl
  | [c], h => by
    unfold unescape_quotes
    rw [if_neg (fun hc : c = squote =>
      h (by rw [hc]; exact List.mem_cons_self squote []))]
  | c :: c2 :: rest, h => by
    unfold unescape_quotes
    rw [if_neg (fun hc : c = squote =>
      h (by rw [hc]; exact List.mem_cons_self squote (c2 :: rest)))]
    rw [unescape_quotes_of_no_quote (c2 :: rest) (fun hm => h (List.mem_cons_of_mem c hm))]
    rfl

theorem insert_task_row_of_no_quote (name : String) (db : List Row)
    (hq : squote ∉ name.data) :
    insert_task_row name db = db ++ [{ task_name := name, task_finished := 0 }] := by
  unfold insert_task_row stored_name
  rw [unescape_quotes_of_no_quote name.data hq]
  rfl

/-- C2 counterexample: the claim as stated fails for a non-empty name
containing a single quote.  With the one-character name `"'"` the
assembled statement `INSERT ... VALUES (''', 0);` is malformed:
`sqlite3_exec` fails and zero rows reach storage, although the in-memory
collection still grows by one. -/
theorem add_task_nonempty_cex :
    String.mk [squote] ≠ "" ∧
    (add_task true (String.mk [squote]) ⟨[], [], []⟩).tasks.length = 1 ∧
    (add_task true (String.mk [squote]) ⟨[], [], []⟩).db = [] := by
  refine ⟨by decide, by decide, by decide⟩

/-- C2 (amended): for every non-empty task name containing no single-quote
character, `add_task` appends exactly the task `⟨name, false⟩` to the
active collection (so the size grows by exactly one and the new task is
unfinished) and appends exactly the row `(name, 0)` to storage.  (A name
with quotes still grows the in-memory collection by one, but the
concatenated INSERT inserts nothing — unpaired quote — or a row with the
unescaped name — paired quotes.) -/
theorem add_task_nonempty (name : String) (s : AppState)
    (h : name ≠ "") (hq : squote ∉ name.data) :
    (add_task true name s).tasks = s.tasks ++ [{ name := name, is_finished := false }] ∧
    (add_task true name s).tasks.length = s.tasks.length + 1 ∧
    (add_task true name s).db = s.db ++ [{ task_name := name, task_finished := 0 }] := by
  unfold add_task
  rw [if_neg h]
  refine ⟨rfl, by simp, ?_⟩
  show (if (true : Bool) then insert_task_row name s.db else s.db)
      = s.db ++ [{ task_name := name, task_finished := 0 }]
  rw [if_pos rfl, insert_task_row_of_no_quote name s.db hq]

theorem add_task_nonempty_witness :
    (("X" : String) ≠ "" ∧ squote ∉ ("X" : String).data) ∧
    ((add_task true "X" ⟨[], [], []⟩).tasks = [] ++ [{ name := "X", is_finished := false }] ∧
     (add_task true "X" ⟨[], [], []⟩).tasks.length = ([] : List Task).length + 1 ∧
     (add_task true "X" ⟨[], [], []⟩).db = [] ++ [{ task_name := "X", task_finished := 0 }]) :=
  ⟨⟨by decide, by decide⟩, add_task_nonempty "X" ⟨[], [], []⟩ (by decide) (by decide)⟩

/-- C3: adding a task with the empty name is a complete no-op: neither the
in-memory state nor the stored table changes, whether or not the store can
be opened. -/
theorem add_task_empty (openOK : Bool) (s : AppState) :
    add_task openOK "" s = s := by
  unfold add_task
  rw [if_pos rfl]

/-- C4: setting the completion flag of the active task at a valid index to
a target state twice yields the same collection as setting it once (in
particular, toggling to `true` twice leaves `is_finished = true`). -/
theorem toggle_task_idempotent (ts : List Task) (i : Nat) (b : Bool)
    (_h : i < ts.length) :
    toggle_task (toggle_task ts i b) i b = toggle_task ts i b := by
  clear _h
  induction ts generalizing i with
  | nil => rfl
  | cons t rest ih =>
    cases i with
    | zero => rfl
    | succ n =>
      show t :: toggle_task (toggle_task rest n b) n b = t :: toggle_task rest n b
      rw [ih]

theorem toggle_task_idempotent_witness :
    0 < List.length [(⟨"a", false⟩ : Task)] ∧
    toggle_task (toggle_task [⟨"a", false⟩] 0 true) 0 true =
      toggle_task [(⟨"a", false⟩ : Task)] 0 true :=
  ⟨by decide, toggle_task_idempotent [⟨"a", false⟩] 0 true (by decide)⟩

/-- C5: the clear-finished action empties the in-memory finished
collection, removes every stored row with `task_finished = 1`, and leaves
both the in-memory active collection and the stored `task_finished = 0`
rows exactly as they were. -/
theorem clear_finished_spec (s : AppState) :
    (clear_finished s).tasks = s.tasks ∧
    (clear_finished s).finished_tasks = [] ∧
    (clear_finished s).db.filter (fun r => r.task_finished == 1) = [] ∧
    (clear_finished s).db.filter (fun r => r.task_finished == 0) =
      s.db.filter (fun r => r.task_finished == 0) := by
  refine ⟨rfl, rfl, ?_, ?_⟩
  · show (s.db.filter (fun r => r.task_finished != 1)).filter
        (fun r => r.task_finished == 1) = []
    rw [List.filter_filter]
    apply List.filter_eq_nil_iff.2
    intro r _
    simp only [Bool.and_eq_true, beq_iff_eq, bne_iff_ne, ne_eq, not_and]
    intro h1 h2
    exact h2 h1
  · show (s.db.filter (fun r => r.task_finished != 1)).filter
        (fun r => r.task_finished == 0) = _
    rw [List.filter_filter]
    apply List.filter_congr
    intro r _
    by_cases h : r.task_finished = 0
    · simp [h]
    · simp [h]

/-- C9: `load_tasks_from_database` is atomic on its error paths.  When the
store cannot be opened, or when it opens but the SELECT statement cannot be
prepared, the function returns before `tasks.clear()` executes, so the
whole state — in particular the active collection — is exactly what it was
before the call. -/
theorem load_tasks_error_atomic (openOK prepOK : Bool) (s : AppState)
    (h : openOK = false ∨ prepOK = false) :
    load_tasks_from_database openOK prepOK s = s := by
  unfold load_tasks_from_database
  rcases h with h | h
  · subst h; simp
  · subst h; cases openOK <;> simp

theorem load_tasks_error_atomic_witness :
    ((false : Bool) = false ∨ (true : Bool) = false) ∧
    load_tasks_from_database false true ⟨[⟨"a", false⟩], [⟨"c", true⟩], [⟨"b", 1⟩]⟩ =
      ⟨[⟨"a", false⟩], [⟨"c", true⟩], [⟨"b", 1⟩]⟩ :=
  ⟨Or.inl rfl,
   load_tasks_error_atomic false true ⟨[⟨"a", false⟩], [⟨"c", true⟩], [⟨"b", 1⟩]⟩ (Or.inl rfl)⟩

/-- C10: the erase loop of `delete_tasks` only ever removes elements of the
active vector, so the active collection after the call is a subsequence of
the active collection before the call: the kept tasks appear in their
original relative order and nothing new appears. -/
theorem delete_tasks_tasks_sublist (s : AppState) :
    ((delete_tasks s).tasks).Sublist s.tasks := by
  show (delete_loop s.tasks 0).Sublist s.tasks
  exact delete_loop_sublist_aux s.tasks.length s.tasks 0 (by omega)

/-- C6 counterexample: the claim as stated fails when two in-memory tasks
share a name but disagree on the flag.  With tasks
`[("a", unfinished), ("a", finished)]` and one stored row `("a", 0)`, the
updates run in order and the later one wins: the row ends with
`task_finished = 1`, not the flag `0` of the first task named `"a"`. -/
theorem update_tasks_keyed_cex :
    ¬ (∀ t ∈ ([⟨"a", false⟩, ⟨"a", true⟩] : List Task),
        ∀ r ∈ update_tasks_in_database [⟨"a", false⟩, ⟨"a", true⟩] [⟨"a", 0⟩],
          r.task_name = t.name → r.task_finished = task_flag t) := by
  decide

/-- C6 (amended): `update_tasks_in_database` keys each update on the
task's name.  For an in-memory task `t` that is the last one with its name
(`tasks = l1 ++ t :: l2` with no later task in `l2` sharing the name —
in particular any task whose name is unique), every stored row with that
name (zero, one, or many) ends with `task_finished` equal to `t`'s flag;
rows whose name matches no in-memory task are left in place unchanged; and
no row is ever added or removed, so a name that was never persisted
affects zero rows and raises no error. -/
theorem update_tasks_keyed_on_name (tasks l1 l2 : List Task) (t : Task) (db : List Row)
    (hsplit : tasks = l1 ++ t :: l2) (hlast : ∀ u ∈ l2, u.name ≠ t.name) :
    (∀ r ∈ update_tasks_in_database tasks db, r.task_name = t.name →
        r.task_finished = task_flag t) ∧
    (∀ r ∈ db, (∀ u ∈ tasks, u.name ≠ r.task_name) →
        r ∈ update_tasks_in_database tasks db) ∧
    (update_tasks_in_database tasks db).length = db.length := by
  subst hsplit
  refine ⟨?_, ?_, ?_⟩
  · intro r hr hname
    rw [update_all_eq_map] at hr
    obtain ⟨r0, hr0, rfl⟩ := List.mem_map.1 hr
    rw [apply_updates_append, apply_updates_cons] at hname ⊢
    have hn : (apply_updates l1 r0).task_name = t.name := by
      rw [apply_updates_task_name, update_row_task_name] at hname
      exact hname
    have hrow : update_row t.name (task_flag t) (apply_updates l1 r0)
        = { apply_updates l1 r0 with task_finished := task_flag t } := by
      unfold update_row
      rw [if_pos hn]
    rw [hrow]
    have hfix : apply_updates l2 { apply_updates l1 r0 with task_finished := task_flag t }
        = { apply_updates l1 r0 with task_finished := task_flag t } := by
      apply apply_updates_no_match
      intro u hu
      show u.name ≠ (apply_updates l1 r0).task_name
      rw [hn]
      exact hlast u hu
    rw [hfix]
  · intro r hr hno
    rw [update_all_eq_map]
    have hfix : apply_updates (l1 ++ t :: l2) r = r :=
      apply_updates_no_match _ _ hno
    have hmem := List.mem_map_of_mem (apply_updates (l1 ++ t :: l2)) hr
    rwa [hfix] at hmem
  · rw [update_all_eq_map, List.length_map]

theorem update_tasks_keyed_on_name_witness :
    ([⟨"a", true⟩] : List Task) = [] ++ (⟨"a", true⟩ : Task) :: [] ∧
    (∀ u ∈ ([] : List Task), u.name ≠ (⟨"a", true⟩ : Task).name) ∧
    ((∀ r ∈ update_tasks_in_database [⟨"a", true⟩] [⟨"a", 0⟩, ⟨"b", 5⟩],
        r.task_name = (⟨"a", true⟩ : Task).name → r.task_finished = task_flag ⟨"a", true⟩) ∧
     (∀ r ∈ ([⟨"a", 0⟩, ⟨"b", 5⟩] : List Row),
        (∀ u ∈ ([⟨"a", true⟩] : List Task), u.name ≠ r.task_name) →
          r ∈ update_tasks_in_database [⟨"a", true⟩] [⟨"a", 0⟩, ⟨"b", 5⟩]) ∧
     (update_tasks_in_database [⟨"a", true⟩] [⟨"a", 0⟩, ⟨"b", 5⟩]).length =
       ([⟨"a", 0⟩, ⟨"b", 5⟩] : List Row).length) :=
  ⟨rfl, by decide,
   update_tasks_keyed_on_name [⟨"a", true⟩] [] [] ⟨"a", true⟩ [⟨"a", 0⟩, ⟨"b", 5⟩]
     rfl (by decide)⟩

/-- C7 counterexample: the claim as stated fails for a name with a paired
single quote.  For the four-character name `a''b` the assembled INSERT
executes successfully — the add succeeds against storage, one row is
inserted — but the SQL literal `'a''b'` denotes the three-character string
`a'b`, so that is what the row carries, and the reloaded active collection
does not contain a task named `a''b`. -/
theorem add_then_load_roundtrip_cex :
    String.mk [Char.ofNat 97, squote, squote, Char.ofNat 98] ≠ "" ∧
    (add_task true (String.mk [Char.ofNat 97, squote, squote, Char.ofNat 98]) ⟨[], [], []⟩).db
      = [{ task_name := String.mk [Char.ofNat 97, squote, Char.ofNat 98], task_finished := 0 }] ∧
    ({ name := String.mk [Char.ofNat 97, squote, squote, Char.ofNat 98],
       is_finished := false } : Task) ∉
      (load_tasks_from_database true true
        (add_task true (String.mk [Char.ofNat 97, squote, squote, Char.ofNat 98])
          ⟨[], [], []⟩)).tasks := by
  refine ⟨by decide, by decide, by decide⟩

/-- C7 (amended): after `add_task` with a non-empty name containing no
single-quote character succeeds against storage, a successful
`load_tasks_from_database` yields an active collection containing the task
with that name and `is_finished = false` (the inserted row carries the
name verbatim and flag 0, survives the `task_finished = 0` filter, and
converts back to an unfinished task).  For names with quotes the stored
row — when one is inserted at all — carries the unescaped name instead. -/
theorem add_then_load_roundtrip (name : String) (s : AppState)
    (h : name ≠ "") (hq : squote ∉ name.data) :
    ({ name := name, is_finished := false } : Task) ∈
      (load_tasks_from_database true true (add_task true name s)).tasks := by
  have hdb : (add_task true name s).db
      = s.db ++ [{ task_name := name, task_finished := 0 }] := by
    unfold add_task
    rw [if_neg h]
    show (if (true : Bool) then insert_task_row name s.db else s.db) = _
    rw [if_pos rfl, insert_task_row_of_no_quote name s.db hq]
  have hload : (load_tasks_from_database true true (add_task true name s)).tasks
      = select_active (add_task true name s).db := rfl
  rw [hload, hdb]
  unfold select_active
  rw [List.filter_append, List.map_append]
  apply List.mem_append_right
  show ({ name := name, is_finished := false } : Task) ∈
    [{ name := name, is_finished := false }]
  exact List.mem_cons_self _ _

theorem add_then_load_roundtrip_witness :
    (("X" : String) ≠ "" ∧ squote ∉ ("X" : String).data) ∧
    ({ name := "X", is_finished := false } : Task) ∈
      (load_tasks_from_database true true (add_task true "X" ⟨[], [], []⟩)).tasks :=
  ⟨⟨by decide, by decide⟩, add_then_load_roundtrip "X" ⟨[], [], []⟩ (by decide) (by decide)⟩

end TodoList
